import Mathlib

/-!
Shallow embedding of the link-resolution and caching core of the
`limbusart` service (`src/data.rs`, `src/main.rs`, `src/error.rs`),
together with theorems settling the specification claims about it.

Conventions of the embedding:
* Rust panics (`unwrap` on `None`, out-of-bounds indexing) are made explicit
  through the `PResult` type, which has a dedicated `panic` constructor next
  to `ok` and `err`.
* `AppError` carries only a message string in the source paths modelled here,
  so errors are embedded as `String`.
* `http::Uri` is an external crate; `Uri` below is a model of the parts of
  its behaviour the program uses (parsing of absolute-form
  `scheme://authority/path?query`, origin-form `/path?query` and bare
  authority-form strings, plus the `scheme_str`, `authority`, `host`,
  `path`, `query` accessors).  All string processing is done on `List Char`
  with structural recursion so that concrete instances evaluate by `decide`.
* Network effects (the Safebooru API fetch, the fxtwitter mirror request,
  the two sample-URL probe requests) are abstracted as parameters holding
  their observable outcome.
-/

namespace Limbusart

/-- Result of a Rust code path that can return `Ok`, return `Err`, or panic. -/
inductive PResult (α : Type) where
  | ok : α → PResult α
  | err : String → PResult α
  | panic : PResult α
deriving DecidableEq, Repr

/-- Outcome of a loop body that mutates state: success, error, or panic. -/
inductive RunResult where
  | ok : RunResult
  | err : String → RunResult
  | panic : RunResult
deriving DecidableEq, Repr

/-! ### Character-list string helpers (structural, kernel-reducible) -/

/-- Split a character list at every occurrence of `sep`
(the behaviour of Rust `str::split(sep)`: always at least one piece). -/
def splitOnChar (sep : Char) : List Char → List (List Char)
  | [] => [[]]
  | c :: rest =>
    if c = sep then [] :: splitOnChar sep rest
    else
      match splitOnChar sep rest with
      | [] => [[c]]
      | g :: gs => (c :: g) :: gs

/-- `isPrefixCh pat l` is true when `pat` is a prefix of `l`. -/
def isPrefixCh : List Char → List Char → Bool
  | [], _ => true
  | _ :: _, [] => false
  | a :: as, b :: bs => a = b && isPrefixCh as bs

/-- Break `l` at the first occurrence of `pat`, returning the part before
and the part after the occurrence, or `none` when `pat` does not occur. -/
def breakSub (pat : List Char) : List Char → Option (List Char × List Char)
  | [] => none
  | c :: rest =>
    if isPrefixCh pat (c :: rest) then some ([], (c :: rest).drop pat.length)
    else
      match breakSub pat rest with
      | some (b, a) => some (c :: b, a)
      | none => none

/-- Substring containment (Rust `str::contains` for a non-empty needle). -/
def strContains (s pat : String) : Bool :=
  (breakSub pat.toList s.toList).isSome

/-! ### Model of `http::Uri` -/

/-- Model of the external `http::Uri` type: the components the program reads. -/
structure Uri where
  scheme : Option String
  authority : Option String
  path : String
  query : Option String
deriving DecidableEq, Repr

/-- Characters accepted by the model parser inside an authority. -/
def isAuthChar (c : Char) : Bool :=
  c.isAlphanum || c = '.' || c = '-' || c = '_' || c = '~' || c = ':' ||
    c = '@' || c = '%'

/-- Characters accepted by the model parser inside a path or query. -/
def isPathChar (c : Char) : Bool :=
  isAuthChar c || c = '/' || c = '?' || c = '!' || c = '$' || c = '&' ||
    c = '(' || c = ')' || c = '*' || c = '+' || c = ',' || c = ';' || c = '='

/-- Split path-and-query characters into the path and the optional query
(the query starts after the first `?`). -/
def splitPathQuery (cs : List Char) : String × Option String :=
  match breakSub ['?'] cs with
  | some (p, q) => (String.mk p, some (String.mk q))
  | none => (String.mk cs, none)

/-- Model of `http::Uri::from_str`.  Covers the three accepted shapes:
absolute form `scheme://authority[/path][?query]` (empty path reads back
as `/`), origin form `/path[?query]` with no scheme and no authority, and
bare authority form.  Anything else (empty string, invalid characters,
empty scheme or authority) fails. -/
def Uri.parse (s : String) : Option Uri :=
  match s.toList with
  | [] => none
  | c :: cs =>
    match breakSub [':', '/', '/'] (c :: cs) with
    | some (sch, rest) =>
      if sch.isEmpty ∨ ¬ sch.all Char.isAlphanum then none
      else
        let auth := rest.takeWhile fun ch => isAuthChar ch
        let r2 := rest.drop auth.length
        if auth.isEmpty then none
        else
          match r2 with
          | [] => some ⟨some (String.mk sch), some (String.mk auth), "/", none⟩
          | c2 :: cs2 =>
            if c2 = '/' ∧ (c2 :: cs2).all isPathChar then
              let (p, q) := splitPathQuery (c2 :: cs2)
              some ⟨some (String.mk sch), some (String.mk auth), p, q⟩
            else if c2 = '?' ∧ cs2.all isPathChar then
              some ⟨some (String.mk sch), some (String.mk auth), "/",
                some (String.mk cs2)⟩
            else none
    | none =>
      if c = '/' then
        if (c :: cs).all isPathChar then
          let (p, q) := splitPathQuery (c :: cs)
          some ⟨none, none, p, q⟩
        else none
      else if (c :: cs).all isAuthChar then
        some ⟨none, some (String.mk (c :: cs)), "", none⟩
      else none

/-- Model of `http::uri::Authority::host`: drop any userinfo before `@`,
then drop any `:port` suffix. -/
def authHost (a : String) : String :=
  String.mk (((splitOnChar '@' a.toList).getLastD []).takeWhile fun c => c ≠ ':')

/-- Model of `http::Uri::host`. -/
def Uri.host (u : Uri) : Option String :=
  u.authority.map authHost

/-- Model of `http::Uri`'s `Display` (used by `sample_url.to_string()`). -/
def Uri.toStr (u : Uri) : String :=
  (match u.scheme with | some sch => sch ++ "://" | none => "") ++
    (match u.authority with | some a => a | none => "") ++
    u.path ++
    (match u.query with | some q => "?" ++ q | none => "")

/-! ### `src/data.rs`: `ArtKind`, `Art`, `Data` -/

/-- `ArtKind` from `src/data.rs`. -/
inductive ArtKind where
  | Twitter
  | Safebooru
deriving DecidableEq, Repr

/-- `ArtKind::from_str`: fixed host table. -/
def ArtKind.fromStr (s : String) : Except String ArtKind :=
  if s = "twitter.com" then .ok .Twitter
  else if s = "safebooru.org" then .ok .Safebooru
  else .error "not support website"

/-- `Art` from `src/data.rs`. -/
structure Art where
  url : Uri
  kind : ArtKind
deriving DecidableEq, Repr

/-- `Art::from_str`: parse the line as a `Uri` (failure is a parse error),
then `url.authority().unwrap()` — a panic when the URI has no authority —
then map the authority's host through the `ArtKind` table. -/
def Art.fromStr (s : String) : PResult Art :=
  match Uri.parse s with
  | none => .err "invalid uri"
  | some url =>
    match url.authority with
    | none => .panic
    | some auth =>
      match ArtKind.fromStr (authHost auth) with
      | .ok kind => .ok ⟨url, kind⟩
      | .error e => .err e

/-- Overwriting insert of an association list: the model of
`HashMap::insert` (an existing binding of the key is replaced). -/
def mapInsert (m : List (Uri × Nat)) (k : Uri) (v : Nat) : List (Uri × Nat) :=
  match m with
  | [] => [(k, v)]
  | (k2, v2) :: rest =>
    if k2 = k then (k, v) :: rest else (k2, v2) :: mapInsert rest k v

/-- Lookup in the association-list model of `HashMap`. -/
def mapFind (m : List (Uri × Nat)) (k : Uri) : Option Nat :=
  match m with
  | [] => none
  | (k2, v) :: rest => if k2 = k then some v else mapFind rest k

/-- `HashMap::contains_key` in the association-list model. -/
def mapContains (m : List (Uri × Nat)) (k : Uri) : Bool :=
  (mapFind m k).isSome

/-- `Data` from `src/data.rs`: the art sequence and the URL-to-index map. -/
structure Data where
  art : List Art
  art_indices : List (Uri × Nat)
deriving DecidableEq, Repr

/-- The loop body of `Data::parse`: for each line, parse an `Art`,
insert its URL into the index map at the current length (overwriting any
previous binding) and push it onto the sequence.  Errors and panics of
`Art::from_str` abort the whole call.  The registry text is embedded as
its list of lines (`data.lines()`). -/
def parseLoop (lines : List String) (acc : Data) : PResult Data :=
  match lines with
  | [] => .ok acc
  | l :: rest =>
    match Art.fromStr l with
    | .ok a =>
      parseLoop rest ⟨acc.art ++ [a], mapInsert acc.art_indices a.url acc.art.length⟩
    | .err e => .err e
    | .panic => .panic

/-- `Data::parse`. -/
def Data.parse (lines : List String) : PResult Data :=
  parseLoop lines ⟨[], []⟩

/-- The loop of `Data::reload`: parse each line; if the URL is not yet in
the index map, record it at the current length and append; otherwise skip.
A failing line stops the loop, leaving the state mutated so far in place
(the Rust method takes `&mut self` and returns early with `?`). -/
def reloadLoop (acc : Data) (lines : List String) : Data × RunResult :=
  match lines with
  | [] => (acc, .ok)
  | l :: rest =>
    match Art.fromStr l with
    | .ok a =>
      if mapContains acc.art_indices a.url then reloadLoop acc rest
      else
        reloadLoop ⟨acc.art ++ [a], mapInsert acc.art_indices a.url acc.art.length⟩ rest
    | .err e => (acc, .err e)
    | .panic => (acc, .panic)

/-- `Data::reload`. -/
def Data.reload (d : Data) (lines : List String) : Data × RunResult :=
  reloadLoop d lines

/-- `FetchedLink` from `src/data.rs` (the spec's `ResolvedLink`). -/
structure FetchedLink where
  image_url : String
  new_source : Option Uri
deriving DecidableEq, Repr

/-! ### `src/main.rs`: Safebooru retry loop -/

/-- The retry loop of `_fetch_safebooru_image_link`, built from
`futures_retry::FutureRetry` and the error handler closure over the
mutable `attempts` counter (initially `0`): each failed attempt consults
the handler, which forwards the error once `attempts > 4` and otherwise
increments `attempts` and repeats.  The i-th execution of `try_request`
is abstracted as `f i` (every attempt performs the same GET+parse; the
index only orders the outcomes). -/
def retryGo (f : Nat → Except String α) (attempts i : Nat) : Except String α :=
  match f i with
  | .ok a => .ok a
  | .error e =>
    if attempts > 4 then .error e
    else retryGo f (attempts + 1) (i + 1)
termination_by 5 - attempts
decreasing_by omega

/-- The whole retried fetch: start with `attempts = 0` at the first call. -/
def retryFetch (f : Nat → Except String α) : Except String α :=
  retryGo f 0 0

/-! ### `src/main.rs`: Safebooru id extraction -/

/-- Model of `form_urlencoded::parse` restricted to what the program reads:
split the query on `&`, drop empty pieces, and split each piece at its
first `=` into name and value (a piece with no `=` has an empty value).
Percent- and plus-decoding are omitted; they do not affect the claims. -/
def formUrlencoded (q : String) : List (String × String) :=
  (splitOnChar '&' q.toList).filterMap fun seg =>
    if seg.isEmpty then none
    else
      match breakSub ['='] seg with
      | some (n, v) => some (String.mk n, String.mk v)
      | none => some (String.mk seg, "")

/-- The id-extraction prologue of `_fetch_safebooru_image_link`:
`url.query().unwrap()` — a panic when the URI carries no query string —
then a loop keeping the value of the last `id` parameter, then
`Err("no id?")` when that value is empty. -/
def safebooruExtractId (query : Option String) : PResult String :=
  match query with
  | none => .panic
  | some q =>
    let id := (formUrlencoded q).foldl (fun acc nv => if nv.1 = "id" then nv.2 else acc) ""
    if id = "" then .err "no id?" else .ok id

/-! ### `src/main.rs`: Safebooru response processing -/

/-- A JSON value as far as the program inspects it (`as_str`). -/
inductive JVal where
  | str : String → JVal
  | nonstr : JVal
deriving DecidableEq, Repr

/-- The fields of a Safebooru API post object that the program reads
(`serde_json::Map` accessed via `get("source")` / `get("sample_url")`). -/
structure Post where
  source : Option JVal
  sample_url : Option JVal
deriving DecidableEq, Repr

/-- The Pixiv rewrite in `_fetch_safebooru_image_link`:
`src.path().split('/').last().unwrap().split("_").next().unwrap()` gives
the post id; the rewritten URI is built with scheme `https`, authority
`pixiv.net`, and path `/en/artworks/<post_id>`. -/
def pixivPostId (path : String) : String :=
  String.mk ((splitOnChar '_' ((splitOnChar '/' path.toList).getLastD [])).headD [])

/-- The URI the Pixiv rewrite constructs. -/
def pixivRewrite (src : Uri) : Uri :=
  ⟨some "https", some "pixiv.net", "/en/artworks/" ++ pixivPostId src.path, none⟩

/-- The `source_url` computation: take the first post's `source` field if it
is present and a string, parse it as a URI (failures ignored), and apply
the Pixiv rewrite when the host is `i.pximg.net`. -/
def sourceUrlOf (post : Post) : Option Uri :=
  (match post.source with
   | some (.str s) => Uri.parse s
   | _ => (none : Option Uri)).map fun (src : Uri) =>
    if src.host = some "i.pximg.net" then pixivRewrite src else src

/-- The sample-URL tail of `_fetch_safebooru_image_link`: read the first
post's `sample_url` (missing field or non-string are errors), parse it
(failure is an error), then build the plain candidate
`scheme://host/path` and the extra-separator candidate
`scheme://host//path` (`scheme_str().unwrap()` and `host().unwrap()`
panic when absent); `probeF` and `probeS` are the success of the two probe
GETs, and the chosen image URL prefers the plain candidate, then the
second, then the original `sample_url` string. -/
def sampleStep (probeF probeS : Bool) (post : Post) (source_url : Option Uri) :
    PResult FetchedLink :=
  match post.sample_url with
  | none => .err "safebooru did not return sample url"
  | some .nonstr => .err "safebooru sample url wasnt a string"
  | some (.str s) =>
    match Uri.parse s with
    | none => .err "safebooru sample url was not valid"
    | some su =>
      match su.scheme, su.host with
      | some sch, some h =>
        let fsample := sch ++ "://" ++ h ++ su.path
        let ssample := sch ++ "://" ++ h ++ "/" ++ su.path
        let chosen := if probeF then fsample else if probeS then ssample else su.toStr
        .ok ⟨chosen, source_url⟩
      | _, _ => .panic

/-- The post-fetch part of `_fetch_safebooru_image_link`, from the
`data[0]` access on.  `fetchTwitter` abstracts the recursive call to
`_fetch_twitter_image_link`; `probeF`/`probeS` the two probe requests.
`data[0]` on an empty vector is a panic; when the (rewritten) source's
host contains `twitter.com` or `x.com` (`host().unwrap()` panics on a
host-less source), a successful Twitter fetch is returned with
`new_source` set to that source, and a failed one falls through to the
sample-URL step. -/
def safebooruAfterFetch (fetchTwitter : Uri → Except String FetchedLink)
    (probeF probeS : Bool) (data : List Post) : PResult FetchedLink :=
  match data with
  | [] => .panic
  | post :: _ =>
    let source_url := sourceUrlOf post
    match source_url with
    | some src =>
      match src.host with
      | none => .panic
      | some h =>
        if strContains h "twitter.com" || strContains h "x.com" then
          match fetchTwitter src with
          | .ok fetched => .ok { fetched with new_source := some src }
          | .error _ => sampleStep probeF probeS post source_url
        else sampleStep probeF probeS post source_url
    | none => sampleStep probeF probeS post source_url

/-- `_fetch_safebooru_image_link` end to end: id extraction from the
source URI's query, then the retried API fetch (its i-th attempt
abstracted as `apiAttempt i`), then response processing. -/
def fetchSafebooruImageLink (fetchTwitter : Uri → Except String FetchedLink)
    (apiAttempt : Nat → Except String (List Post)) (probeF probeS : Bool)
    (url : Uri) : PResult FetchedLink :=
  match safebooruExtractId url.query with
  | .panic => .panic
  | .err e => .err e
  | .ok _ =>
    match retryFetch apiAttempt with
    | .error e => .err e
    | .ok data => safebooruAfterFetch fetchTwitter probeF probeS data

/-! ### `src/main.rs`: Twitter resolver -/

/-- The part of the fxtwitter mirror response that the program inspects:
the optional `Location` header of a response that already passed
`error_for_status`. -/
structure TwResp where
  location : Option String
deriving DecidableEq, Repr

/-- The response-handling part of `_fetch_twitter_image_link`: the mirror
GET (status check folded in) is abstracted as `resp`; a missing
`Location` header is the no-image-location error, and a present one is
returned with `?format=webp` appended and no source correction. -/
def fetchTwitterImageLink (fxurl : String) (resp : Except String TwResp) :
    Except String FetchedLink :=
  match resp with
  | .error e => .error e
  | .ok r =>
    match r.location with
    | none => .error ("twitter link " ++ fxurl ++ " did not return an image location")
    | some link => .ok ⟨link ++ "?format=webp", none⟩

/-! ### `src/main.rs`: `show_art` cache logic -/

/-- Lookup in the association-list model of the `DashMap` link cache. -/
def cacheGet (cache : List (Uri × FetchedLink)) (k : Uri) : Option FetchedLink :=
  match cache with
  | [] => none
  | (k2, v) :: rest => if k2 = k then some v else cacheGet rest k

/-- Overwriting insert in the association-list model of the link cache. -/
def cacheInsert (cache : List (Uri × FetchedLink)) (k : Uri) (v : FetchedLink) :
    List (Uri × FetchedLink) :=
  match cache with
  | [] => [(k, v)]
  | (k2, v2) :: rest =>
    if k2 = k then (k, v) :: rest else (k2, v2) :: cacheInsert rest k v

/-- The cache-or-resolve logic of `show_art` for a picked entry: look up
`direct_links` by `art.url`; on a hit return the clone; on a miss select
the resolver by `art.kind`, run it on `art.url` (each resolver abstracted
as a function of the URL), and on success insert the result under
`art.url` before returning it; a resolver error propagates (`?`) with the
cache untouched.  Returns the link and the cache after the call. -/
def resolveOrLookup (fetchTwitter fetchSafebooru : Uri → Except String FetchedLink)
    (cache : List (Uri × FetchedLink)) (art : Art) :
    Except String (FetchedLink × List (Uri × FetchedLink)) :=
  match cacheGet cache art.url with
  | some v => .ok (v, cache)
  | none =>
    let fn :=
      match art.kind with
      | .Twitter => fetchTwitter
      | .Safebooru => fetchSafebooru
    match fn art.url with
    | .ok v => .ok (v, cacheInsert cache art.url v)
    | .error e => .error e

/-- Boolean success test for `PResult`. -/
def PResult.isOk : PResult α → Bool
  | .ok _ => true
  | _ => false

/-! ## Shared lemmas about the association-list map model -/

theorem mapFind_insert (m : List (Uri × Nat)) (k u : Uri) (v : Nat) :
    mapFind (mapInsert m k v) u = if k = u then some v else mapFind m u := by
  induction m with
  | nil =>
    by_cases h : k = u <;> simp [mapInsert, mapFind, h]
  | cons p rest ih =>
    obtain ⟨k2, v2⟩ := p
    by_cases h1 : k2 = k
    · subst h1
      by_cases h2 : k2 = u <;> simp [mapInsert, mapFind, h2]
    · by_cases h2 : k2 = u
      · subst h2
        have hku : ¬ k = k2 := fun he => h1 he.symm
        simp [mapInsert, mapFind, h1, hku]
      · simp [mapInsert, mapFind, h1, h2, ih]

theorem mapContains_insert (m : List (Uri × Nat)) (k u : Uri) (v : Nat) :
    mapContains (mapInsert m k v) u = (decide (k = u) || mapContains m u) := by
  by_cases h : k = u <;> simp [mapContains, mapFind_insert, h]

/-! ## C1: duplicate handling of `Data::parse` -/

/-- The consistency that `Data::parse` actually establishes between the
index map and the art sequence: every binding in `art_indices` points at
the LAST position in `art` that holds its URL. -/
def LastWins (d : Data) : Prop :=
  ∀ u i, mapFind d.art_indices u = some i →
    ∃ a, d.art[i]? = some a ∧ a.url = u ∧
      ∀ j b, i < j → d.art[j]? = some b → b.url ≠ u

theorem parseLoop_lastWins : ∀ (lines : List String) (acc d : Data),
    parseLoop lines acc = .ok d → LastWins acc →
    LastWins d ∧ d.art.length = acc.art.length + lines.length := by
  intro lines
  induction lines with
  | nil =>
    intro acc d h hinv
    simp only [parseLoop] at h
    cases h
    exact ⟨hinv, by simp⟩
  | cons l rest ih =>
    intro acc d h hinv
    simp only [parseLoop] at h
    cases ha : Art.fromStr l with
    | ok a =>
      rw [ha] at h
      have hstep :
          LastWins ⟨acc.art ++ [a], mapInsert acc.art_indices a.url acc.art.length⟩ := by
        intro u i hfind
        simp only [mapFind_insert] at hfind
        by_cases hu : a.url = u
        · rw [if_pos hu] at hfind
          obtain rfl : acc.art.length = i := by injection hfind
          refine ⟨a, ?_, hu, ?_⟩
          · exact List.getElem?_concat_length acc.art a
          · intro j b hij hget
            have hj := (List.getElem?_eq_some.mp hget).1
            simp only [List.length_append, List.length_cons, List.length_nil] at hj
            omega
        · rw [if_neg hu] at hfind
          obtain ⟨a2, hget2, hurl2, hlast⟩ := hinv u i hfind
          have hi : i < acc.art.length := (List.getElem?_eq_some.mp hget2).1
          refine ⟨a2, ?_, hurl2, ?_⟩
          · show (acc.art ++ [a])[i]? = some a2
            rw [List.getElem?_append, if_pos hi]; exact hget2
          · intro j b hij hget
            by_cases hj : j < acc.art.length
            · rw [List.getElem?_append, if_pos hj] at hget
              exact hlast j b hij hget
            · by_cases hj2 : j = acc.art.length
              · subst hj2
                rw [List.getElem?_concat_length] at hget
                cases hget
                exact fun he => hu he
              · have hlen : (acc.art ++ [a]).length ≤ j := by
                  simp only [List.length_append, List.length_cons, List.length_nil]
                  omega
                rw [List.getElem?_eq_none hlen] at hget
                cases hget
      have hrest := ih _ d h hstep
      refine ⟨hrest.1, ?_⟩
      have hlen := hrest.2
      simp only [List.length_append, List.length_cons, List.length_nil] at hlen
      simp only [List.length_cons]
      omega
    | err e => rw [ha] at h; cases h
    | panic => rw [ha] at h; cases h

/-- The URI of the duplicated registry line used as the C1 counterexample. -/
def twUri : Uri := ⟨some "https", some "twitter.com", "/a", none⟩

/-- The entry parsed from that line. -/
def twArt : Art := ⟨twUri, .Twitter⟩

/-- A registry text whose two lines are the same URL. -/
def dupLines : List String := ["https://twitter.com/a", "https://twitter.com/a"]

/-- What `Data::parse` produces for `dupLines`. -/
def dupData : Data := ⟨[twArt, twArt], [(twUri, 1)]⟩

/-- C1 counterexample: on a registry text repeating the same URL twice,
`Data::parse` succeeds with the URL occupying BOTH positions 0 and 1 of
the entry sequence (not at most one position), and the index map pointing
at position 1, the last occurrence (not the first). -/
theorem parse_not_first_wins :
    Data.parse dupLines = .ok dupData ∧
    dupData.art[0]? = some twArt ∧ dupData.art[1]? = some twArt ∧
    twArt.url = twUri ∧
    mapFind dupData.art_indices twUri = some 1 := by
  decide

/-- C1 (amended): `Data::parse` accumulates every line positionally — the
entry sequence has exactly one entry per line, so a duplicated URL
occupies one position per occurrence — and on duplicates the index map is
last-wins: every binding in `art_indices` points at the last position in
the sequence holding its URL. -/
theorem parse_index_last_occurrence (lines : List String) (d : Data)
    (h : Data.parse lines = .ok d) :
    d.art.length = lines.length ∧ LastWins d := by
  have base : LastWins ⟨[], []⟩ := by
    intro u i hfind
    simp [mapFind] at hfind
  have := parseLoop_lastWins lines ⟨[], []⟩ d h base
  exact ⟨by simpa using this.2, this.1⟩

/-- C1 witness: the amended theorem applied to the duplicated text. -/
theorem parse_index_last_occurrence_witness :
    Data.parse dupLines = .ok dupData ∧
    (dupData.art.length = dupLines.length ∧ LastWins dupData) :=
  ⟨by decide, parse_index_last_occurrence dupLines dupData (by decide)⟩

/-! ## C2: missing or empty Safebooru `id` -/

/-- A Safebooru source URI that carries no query string at all. -/
def sbNoQueryUri : Uri := ⟨some "https", some "safebooru.org", "/index.php", none⟩

/-- A concrete stand-in for the recursive Twitter fetch in closed instances. -/
def cexFetchTw : Uri → Except String FetchedLink := fun _ => .error "tw unreachable"

/-- A concrete stand-in for the retried API fetch in closed instances. -/
def cexApi : Nat → Except String (List Post) := fun _ => .error "api unreachable"

/-- C2 counterexample: on a `safebooru.org` source URI with no query
string at all, the resolver does not fail with the `"no id?"` error — it
panics on `url.query().unwrap()`. -/
theorem safebooru_no_query_panics :
    Uri.parse "https://safebooru.org/index.php" = some sbNoQueryUri ∧
    sbNoQueryUri.query = none ∧
    fetchSafebooruImageLink cexFetchTw cexApi true true sbNoQueryUri = .panic ∧
    (PResult.panic : PResult FetchedLink) ≠ .err "no id?" := by
  decide

theorem foldl_noid (l : List (String × String))
    (h : ∀ nv ∈ l, nv.1 = "id" → nv.2 = "") :
    l.foldl (fun acc nv => if nv.1 = "id" then nv.2 else acc) "" = "" := by
  induction l with
  | nil => rfl
  | cons nv rest ih =>
    have hb : (if nv.1 = "id" then nv.2 else "") = "" := by
      by_cases hn : nv.1 = "id"
      · simp [hn, h nv (by simp) hn]
      · simp [hn]
    simp only [List.foldl_cons, hb]
    exact ih fun x hx hid => h x (by simp [hx]) hid

/-- C2 (amended): when the source URI carries a query string in which the
`id` parameter is missing or has only empty values, resolution fails with
the `"no id?"` error; but when the URI carries no query string at all,
the resolver panics on the query unwrap instead of returning an error. -/
theorem safebooru_missing_id (q : String)
    (h : ∀ nv ∈ formUrlencoded q, nv.1 = "id" → nv.2 = "") :
    safebooruExtractId (some q) = .err "no id?" ∧
    safebooruExtractId none = .panic ∧
    ∀ (ft : Uri → Except String FetchedLink)
      (api : Nat → Except String (List Post)) (pf ps : Bool) (u : Uri),
      u.query = some q → fetchSafebooruImageLink ft api pf ps u = .err "no id?" := by
  have hq : safebooruExtractId (some q) = .err "no id?" := by
    simp [safebooruExtractId, foldl_noid _ h]
  refine ⟨hq, rfl, ?_⟩
  intro ft api pf ps u hu
  simp [fetchSafebooruImageLink, hu, hq]

/-- C2 witness: the amended theorem applied to the query `page=dapi`,
which has no `id` parameter, and to the Safebooru URI carrying it. -/
theorem safebooru_missing_id_witness :
    (∀ nv ∈ formUrlencoded "page=dapi", nv.1 = "id" → nv.2 = "") ∧
    (safebooruExtractId (some "page=dapi") = .err "no id?" ∧
      safebooruExtractId none = .panic ∧
      ∀ (ft : Uri → Except String FetchedLink)
        (api : Nat → Except String (List Post)) (pf ps : Bool) (u : Uri),
        u.query = some "page=dapi" →
        fetchSafebooruImageLink ft api pf ps u = .err "no id?") :=
  ⟨by decide, safebooru_missing_id "page=dapi" (by decide)⟩

/-! ## C3: cache-or-resolve logic of `show_art` -/

/-- C3: `show_art`'s cache logic checks the cache by the entry's source
URL; a hit returns the stored link with the cache untouched, whatever the
resolvers would do; a miss runs the resolver selected by the entry's kind
and on success returns its link after inserting it under the entry's URL;
a resolver error propagates with the cache untouched (nothing inserted). -/
theorem resolveOrLookup_spec (ft fs : Uri → Except String FetchedLink)
    (cache : List (Uri × FetchedLink)) (art : Art) :
    (∀ v, cacheGet cache art.url = some v →
      resolveOrLookup ft fs cache art = .ok (v, cache)) ∧
    (∀ v, cacheGet cache art.url = none →
      (match art.kind with | .Twitter => ft | .Safebooru => fs) art.url = .ok v →
      resolveOrLookup ft fs cache art = .ok (v, cacheInsert cache art.url v)) ∧
    (∀ e, cacheGet cache art.url = none →
      (match art.kind with | .Twitter => ft | .Safebooru => fs) art.url = .error e →
      resolveOrLookup ft fs cache art = .error e) := by
  refine ⟨?_, ?_, ?_⟩
  · intro v hv
    simp [resolveOrLookup, hv]
  · intro v hmiss hres
    cases art with
    | mk url kind =>
      cases kind <;> simp_all [resolveOrLookup]
  · intro e hmiss hres
    cases art with
    | mk url kind =>
      cases kind <;> simp_all [resolveOrLookup]

/-- A resolved link used in closed instances. -/
def flTw : FetchedLink := ⟨"https://img.example/1.webp", none⟩

/-- A one-entry cache holding `twUri`. -/
def cacheEx : List (Uri × FetchedLink) := [(twUri, flTw)]

/-- C3 witness: the hit branch of the theorem applied to a cache that
already holds the entry's URL. -/
theorem resolveOrLookup_spec_witness :
    cacheGet cacheEx twArt.url = some flTw ∧
    resolveOrLookup cexFetchTw cexFetchTw cacheEx twArt = .ok (flTw, cacheEx) :=
  ⟨by decide, (resolveOrLookup_spec cexFetchTw cexFetchTw cacheEx twArt).1 flTw (by decide)⟩

/-! ## C4: Safebooru retry policy -/

theorem retryGo_eq {α : Type} (f : Nat → Except String α) (attempts i : Nat) :
    retryGo f attempts i =
      match f i with
      | .ok a => .ok a
      | .error e =>
        if attempts > 4 then .error e
        else retryGo f (attempts + 1) (i + 1) := by
  rw [retryGo]
  rfl

theorem retryGo_agree {α : Type} (f g : Nat → Except String α) :
    ∀ (n attempts i : Nat), attempts + n = 5 → (∀ j, j ≤ i + n → f j = g j) →
    retryGo f attempts i = retryGo g attempts i := by
  intro n
  induction n with
  | zero =>
    intro attempts i h5 hagree
    obtain rfl : attempts = 5 := by omega
    rw [retryGo_eq f, retryGo_eq g, hagree i (by omega)]
    cases hgi : g i with
    | ok a => rfl
    | error e => simp
  | succ n ih =>
    intro attempts i h5 hagree
    rw [retryGo_eq f, retryGo_eq g, hagree i (by omega)]
    cases hgi : g i with
    | ok a => rfl
    | error e =>
      have hle : ¬ attempts > 4 := by omega
      simp only [if_neg hle]
      exact ih (attempts + 1) (i + 1) (by omega) fun j hj => hagree j (by omega)

theorem retryGo_allfail {α : Type} (f : Nat → Except String α) (es : Nat → String) :
    ∀ (n attempts i : Nat), attempts + n = 5 →
    (∀ j, j ≤ i + n → f j = .error (es j)) →
    retryGo f attempts i = .error (es (i + n)) := by
  intro n
  induction n with
  | zero =>
    intro attempts i h5 hfail
    obtain rfl : attempts = 5 := by omega
    rw [retryGo_eq f, hfail i (by omega)]
    simp
  | succ n ih =>
    intro attempts i h5 hfail
    rw [retryGo_eq f, hfail i (by omega)]
    have hle : ¬ attempts > 4 := by omega
    simp only [if_neg hle]
    rw [ih (attempts + 1) (i + 1) (by omega) fun j hj => hfail j (by omega)]
    rw [show i + 1 + n = i + (n + 1) by omega]

theorem retryGo_firstok {α : Type} (f : Nat → Except String α) (a : α) :
    ∀ (n attempts i k : Nat), attempts + n = 5 → i ≤ k → k ≤ i + n →
    (∀ j, i ≤ j → j < k → ∃ e, f j = .error e) → f k = .ok a →
    retryGo f attempts i = .ok a := by
  intro n
  induction n with
  | zero =>
    intro attempts i k h5 hik hki hfail hok
    obtain rfl : k = i := by omega
    rw [retryGo_eq f, hok]
  | succ n ih =>
    intro attempts i k h5 hik hki hfail hok
    by_cases hk : k = i
    · subst hk
      rw [retryGo_eq f, hok]
    · obtain ⟨e, he⟩ := hfail i (le_refl i) (by omega)
      rw [retryGo_eq f, he]
      have hle : ¬ attempts > 4 := by omega
      simp only [if_neg hle]
      exact ih (attempts + 1) (i + 1) k (by omega) (by omega) (by omega)
        (fun j hj1 hj2 => hfail j (by omega) hj2) hok

/-- C4: the retried Safebooru API fetch makes at most 6 attempts in total
(the outcome is determined by the first six attempt results), retries on
any failed attempt (an attempt succeeding within the first six yields its
value), and after 6 consecutive failures forwards the 6th error as-is. -/
theorem safebooru_retry_six :
    (∀ (f g : Nat → Except String (List Post)), (∀ i, i ≤ 5 → f i = g i) →
      retryFetch f = retryFetch g) ∧
    (∀ (f : Nat → Except String (List Post)) (es : Nat → String),
      (∀ i, i ≤ 5 → f i = .error (es i)) → retryFetch f = .error (es 5)) ∧
    (∀ (f : Nat → Except String (List Post)) (k : Nat) (a : List Post),
      k ≤ 5 → (∀ j, j < k → ∃ e, f j = .error e) → f k = .ok a →
      retryFetch f = .ok a) := by
  refine ⟨?_, ?_, ?_⟩
  · intro f g h
    exact retryGo_agree f g 5 0 0 rfl fun j hj => h j (by omega)
  · intro f es h
    have := retryGo_allfail f es 5 0 0 rfl fun j hj => h j (by omega)
    simpa using this
  · intro f k a hk hfail hok
    exact retryGo_firstok f a 5 0 0 k rfl (by omega) (by omega)
      (fun j _ hj => hfail j hj) hok

/-- C4 witness: an API failing every attempt with `"boom"`: the fetch
surfaces `"boom"` (the 6th attempt's error). -/
theorem safebooru_retry_six_witness :
    (∀ i, i ≤ 5 → (fun _ => (.error "boom" : Except String (List Post))) i = .error "boom") ∧
    retryFetch (fun _ => (.error "boom" : Except String (List Post))) = .error "boom" :=
  ⟨fun _ _ => rfl,
    safebooru_retry_six.2.1 (fun _ => .error "boom") (fun _ => "boom") fun _ _ => rfl⟩

/-! ## C5: `reload` applies line by line until the first failure -/

theorem reloadLoop_partial (b : String) (rest : List String) (e : String)
    (hb : Art.fromStr b = .err e) :
    ∀ (pre : List String) (d : Data), (∀ l ∈ pre, (Art.fromStr l).isOk = true) →
    reloadLoop d (pre ++ b :: rest) = ((reloadLoop d pre).1, .err e) := by
  intro pre
  induction pre with
  | nil =>
    intro d _
    simp [reloadLoop, hb]
  | cons l pre ih =>
    intro d hpre
    have hl := hpre l (by simp)
    cases ha : Art.fromStr l with
    | ok a =>
      simp only [List.cons_append, reloadLoop, ha]
      by_cases hc : mapContains d.art_indices a.url = true
      · simp only [if_pos hc]
        exact ih d fun x hx => hpre x (by simp [hx])
      · simp only [if_neg hc]
        exact ih _ fun x hx => hpre x (by simp [hx])
    | err e2 => rw [ha] at hl; simp [PResult.isOk] at hl
    | panic => rw [ha] at hl; simp [PResult.isOk] at hl

/-- C5: `reload` is not atomic on failure: on a text whose first failing
line `b` follows the well-parsing lines `pre`, `reload` returns the parse
error of `b` while the registry state is exactly the one obtained by
reloading `pre` alone — the appendable entries before the failure remain
applied, and nothing after the failing line is processed. -/
theorem reload_partial_apply (d : Data) (pre : List String) (b : String)
    (rest : List String) (e : String)
    (hpre : ∀ l ∈ pre, (Art.fromStr l).isOk = true)
    (hb : Art.fromStr b = .err e) :
    Data.reload d (pre ++ b :: rest) = ((Data.reload d pre).1, .err e) :=
  reloadLoop_partial b rest e hb pre d hpre

/-- C5 witness: reload over a good line, a line with an unrecognized host,
and a further good line stops at the bad line with the first line applied. -/
theorem reload_partial_apply_witness :
    (∀ l ∈ ["https://twitter.com/a"], (Art.fromStr l).isOk = true) ∧
    Art.fromStr "https://example.com/x" = .err "not support website" ∧
    Data.reload ⟨[], []⟩
        (["https://twitter.com/a"] ++ "https://example.com/x" :: ["https://twitter.com/b"]) =
      ((Data.reload ⟨[], []⟩ ["https://twitter.com/a"]).1, .err "not support website") :=
  ⟨by decide, by decide,
    reload_partial_apply ⟨[], []⟩ ["https://twitter.com/a"] "https://example.com/x"
      ["https://twitter.com/b"] "not support website" (by decide) (by decide)⟩

/-! ## C6: `reload` is idempotent -/

theorem reloadLoop_contains_mono (u : Uri) :
    ∀ (lines : List String) (d : Data), mapContains d.art_indices u = true →
    mapContains (reloadLoop d lines).1.art_indices u = true := by
  intro lines
  induction lines with
  | nil => intro d h; simpa [reloadLoop] using h
  | cons l rest ih =>
    intro d h
    cases ha : Art.fromStr l with
    | ok a =>
      simp only [reloadLoop, ha]
      by_cases hc : mapContains d.art_indices a.url = true
      · simp only [if_pos hc]
        exact ih d h
      · simp only [if_neg hc]
        apply ih
        simp [mapContains_insert, h]
    | err e =>
      simp only [reloadLoop, ha]
      exact h
    | panic =>
      simp only [reloadLoop, ha]
      exact h

theorem reloadLoop_ok_mem :
    ∀ (lines : List String) (d d2 : Data), reloadLoop d lines = (d2, .ok) →
    ∀ l ∈ lines, ∃ a, Art.fromStr l = .ok a ∧ mapContains d2.art_indices a.url = true := by
  intro lines
  induction lines with
  | nil => intro d d2 h l hl; cases hl
  | cons l0 rest ih =>
    intro d d2 h l hl
    cases ha : Art.fromStr l0 with
    | ok a =>
      by_cases hc : mapContains d.art_indices a.url = true
      · have h' : reloadLoop d rest = (d2, .ok) := by
          simpa [reloadLoop, ha, hc] using h
        rcases List.mem_cons.mp hl with rfl | hmem
        · refine ⟨a, ha, ?_⟩
          have hmono := reloadLoop_contains_mono a.url rest d hc
          rw [h'] at hmono
          exact hmono
        · exact ih d d2 h' l hmem
      · have h' :
            reloadLoop ⟨d.art ++ [a], mapInsert d.art_indices a.url d.art.length⟩ rest =
              (d2, .ok) := by
          simpa [reloadLoop, ha, hc] using h
        rcases List.mem_cons.mp hl with rfl | hmem
        · refine ⟨a, ha, ?_⟩
          have hc' :
              mapContains
                (Data.mk (d.art ++ [a]) (mapInsert d.art_indices a.url d.art.length)).art_indices
                a.url = true := by
            simp [mapContains_insert]
          have hmono := reloadLoop_contains_mono a.url rest _ hc'
          rw [h'] at hmono
          exact hmono
        · exact ih _ d2 h' l hmem
    | err e =>
      simp [reloadLoop, ha] at h
    | panic =>
      simp [reloadLoop, ha] at h

theorem reloadLoop_noop :
    ∀ (lines : List String) (d : Data),
    (∀ l ∈ lines, ∃ a, Art.fromStr l = .ok a ∧ mapContains d.art_indices a.url = true) →
    reloadLoop d lines = (d, .ok) := by
  intro lines
  induction lines with
  | nil => intro d _; rfl
  | cons l0 rest ih =>
    intro d h
    obtain ⟨a, ha, hc⟩ := h l0 (by simp)
    simp only [reloadLoop, ha, if_pos hc]
    exact ih d fun x hx => h x (by simp [hx])

/-- C6: `reload` is idempotent: if a first `reload` with some text
succeeds and leaves the registry in state `d2`, then a second `reload` of
`d2` with the same text succeeds and changes nothing — the entry sequence
and the index map are exactly `d2` again. -/
theorem reload_idempotent (d d2 : Data) (lines : List String)
    (h : Data.reload d lines = (d2, .ok)) :
    Data.reload d2 lines = (d2, .ok) :=
  reloadLoop_noop lines d2 fun l hl => reloadLoop_ok_mem lines d d2 h l hl

/-- C6 witness: reloading an empty registry with one line, then reloading
the result with the same line, returns the same registry unchanged. -/
theorem reload_idempotent_witness :
    Data.reload ⟨[], []⟩ ["https://twitter.com/a"] = (⟨[twArt], [(twUri, 0)]⟩, .ok) ∧
    Data.reload ⟨[twArt], [(twUri, 0)]⟩ ["https://twitter.com/a"] =
      (⟨[twArt], [(twUri, 0)]⟩, .ok) :=
  ⟨by decide, reload_idempotent ⟨[], []⟩ ⟨[twArt], [(twUri, 0)]⟩ _ (by decide)⟩

/-! ## C7: Twitter resolution from the mirror response -/

/-- C7: when the mirror response carries a `Location` header with value
`l`, the Twitter resolver returns the link `l ++ "?format=webp"` with no
replacement source; when the header is absent it fails with the
no-image-location error. -/
theorem twitter_resolution (fxurl : String) (r : TwResp) :
    (∀ l, r.location = some l →
      fetchTwitterImageLink fxurl (.ok r) = .ok ⟨l ++ "?format=webp", none⟩) ∧
    (r.location = none →
      fetchTwitterImageLink fxurl (.ok r) =
        .error ("twitter link " ++ fxurl ++ " did not return an image location")) := by
  constructor
  · intro l hl
    simp [fetchTwitterImageLink, hl]
  · intro hl
    simp [fetchTwitterImageLink, hl]

/-- C7 witness: the spec's mock mirror returning
`Location: https://video.example/img.jpg`. -/
theorem twitter_resolution_witness :
    (TwResp.mk (some "https://video.example/img.jpg")).location =
      some "https://video.example/img.jpg" ∧
    fetchTwitterImageLink "https://d.fxtwitter.com/a/status/1"
        (.ok ⟨some "https://video.example/img.jpg"⟩) =
      .ok ⟨"https://video.example/img.jpg?format=webp", none⟩ := by
  refine ⟨rfl, ?_⟩
  rw [(twitter_resolution "https://d.fxtwitter.com/a/status/1"
    ⟨some "https://video.example/img.jpg"⟩).1 "https://video.example/img.jpg" rfl]
  rfl

/-! ## C8: the Pixiv source rewrite survives to `replacementSource` -/

theorem sampleStep_new_source (pf ps : Bool) (post : Post) (su : Option Uri)
    (fl : FetchedLink) (h : sampleStep pf ps post su = .ok fl) :
    fl.new_source = su := by
  cases hs : post.sample_url with
  | none => simp [sampleStep, hs] at h
  | some jv =>
    cases jv with
    | nonstr => simp [sampleStep, hs] at h
    | str s =>
      cases hp : Uri.parse s with
      | none => simp [sampleStep, hs, hp] at h
      | some su2 =>
        cases hsc : su2.scheme with
        | none => simp [sampleStep, hs, hp, hsc] at h
        | some sch =>
          cases hh : su2.host with
          | none => simp [sampleStep, hs, hp, hsc, hh] at h
          | some hst =>
            simp only [sampleStep, hs, hp, hsc, hh] at h
            injection h with h2
            rw [← h2]

/-- C8: when the first post's `source` parses to a URI whose host is
`i.pximg.net`, the effective source becomes
`https://pixiv.net/en/artworks/<postId>` with `postId` the portion of the
last path segment before the first underscore, and any successful
resolution (which necessarily goes through the sample-URL step, since
`pixiv.net` is not a Twitter host) returns that URI as the replacement
source. -/
theorem safebooru_pixiv_rewrite (ft : Uri → Except String FetchedLink)
    (pf ps : Bool) (post : Post) (rest : List Post) (s : String) (uri : Uri)
    (fl : FetchedLink)
    (hsrc : post.source = some (.str s))
    (hparse : Uri.parse s = some uri)
    (hhost : uri.host = some "i.pximg.net")
    (hok : safebooruAfterFetch ft pf ps (post :: rest) = .ok fl) :
    sourceUrlOf post = some (pixivRewrite uri) ∧
    fl.new_source = some ⟨some "https", some "pixiv.net",
      "/en/artworks/" ++ pixivPostId uri.path, none⟩ := by
  have hsu : sourceUrlOf post = some (pixivRewrite uri) := by
    simp [sourceUrlOf, hsrc, hparse, hhost]
  have hph : (pixivRewrite uri).host = some "pixiv.net" := by
    simp only [pixivRewrite, Uri.host, Option.map]
    decide
  have hnotw :
      (strContains "pixiv.net" "twitter.com" || strContains "pixiv.net" "x.com") = false := by
    decide
  simp only [safebooruAfterFetch, hsu, hph, hnotw, Bool.false_eq_true, if_false] at hok
  refine ⟨hsu, ?_⟩
  rw [sampleStep_new_source pf ps post _ fl hok]
  rfl

/-- The spec's mock API post: a Pixiv-CDN source and a Safebooru sample. -/
def exPost : Post :=
  ⟨some (.str "https://i.pximg.net/img/12345_p0.jpg"),
   some (.str "https://safebooru.org/samples/1/sample_x.jpg")⟩

/-- The parsed Pixiv-CDN source URI of `exPost`. -/
def pximgUri : Uri := ⟨some "https", some "i.pximg.net", "/img/12345_p0.jpg", none⟩

/-- The link resolved from `exPost` when the plain sample probe succeeds. -/
def exFl : FetchedLink :=
  ⟨"https://safebooru.org/samples/1/sample_x.jpg",
   some ⟨some "https", some "pixiv.net", "/en/artworks/12345", none⟩⟩

/-- C8 witness: on the spec's mock response the replacement source is
`https://pixiv.net/en/artworks/12345`. -/
theorem safebooru_pixiv_rewrite_witness :
    exPost.source = some (.str "https://i.pximg.net/img/12345_p0.jpg") ∧
    Uri.parse "https://i.pximg.net/img/12345_p0.jpg" = some pximgUri ∧
    pximgUri.host = some "i.pximg.net" ∧
    safebooruAfterFetch cexFetchTw true false [exPost] = .ok exFl ∧
    (sourceUrlOf exPost = some (pixivRewrite pximgUri) ∧
      exFl.new_source = some ⟨some "https", some "pixiv.net",
        "/en/artworks/" ++ pixivPostId pximgUri.path, none⟩) :=
  ⟨by decide, by decide, by decide, by decide,
    safebooru_pixiv_rewrite cexFetchTw true false exPost []
      "https://i.pximg.net/img/12345_p0.jpg" pximgUri exFl
      (by decide) (by decide) (by decide) (by decide)⟩

/-! ## C9: empty Safebooru API response -/

/-- C9: on a successful API response that is an empty array, the
`data[0]` access panics instead of producing a `ResolutionError`; hence
any run of the response processing that returns a link had a non-empty
array. -/
theorem safebooru_empty_response_panics :
    (∀ (ft : Uri → Except String FetchedLink) (pf ps : Bool),
      safebooruAfterFetch ft pf ps [] = .panic) ∧
    (∀ (ft : Uri → Except String FetchedLink) (pf ps : Bool)
      (data : List Post) (fl : FetchedLink),
      safebooruAfterFetch ft pf ps data = .ok fl → data ≠ []) := by
  constructor
  · intro ft pf ps
    rfl
  · intro ft pf ps data fl h hne
    subst hne
    simp [safebooruAfterFetch] at h

/-- C9 witness: the empty response panics, and a concrete non-empty
response that resolves successfully. -/
theorem safebooru_empty_response_panics_witness :
    safebooruAfterFetch cexFetchTw true true [] = .panic ∧
    (safebooruAfterFetch cexFetchTw true false [exPost] = .ok exFl ∧
      [exPost] ≠ ([] : List Post)) :=
  ⟨safebooru_empty_response_panics.1 cexFetchTw true true,
    by decide,
    safebooru_empty_response_panics.2 cexFetchTw true false [exPost] exFl (by decide)⟩

/-! ## C10: URI lines without an authority -/

/-- C10: a line that parses as a URI with no authority component makes
`Art::from_str` panic on `authority().unwrap()` instead of returning a
parse error, and through it both `Data::parse` and `Data::reload` panic
as soon as such a line is processed. -/
theorem art_no_authority_panics (s : String) (u : Uri) (rest : List String) (d : Data)
    (hparse : Uri.parse s = some u) (hauth : u.authority = none) :
    Art.fromStr s = .panic ∧
    Data.parse (s :: rest) = .panic ∧
    Data.reload d (s :: rest) = (d, .panic) := by
  have hs : Art.fromStr s = .panic := by
    simp [Art.fromStr, hparse, hauth]
  refine ⟨hs, ?_, ?_⟩
  · simp [Data.parse, parseLoop, hs]
  · simp [Data.reload, reloadLoop, hs]

/-- C10 witness: the bare-path line `/foo`. -/
theorem art_no_authority_panics_witness :
    Uri.parse "/foo" = some ⟨none, none, "/foo", none⟩ ∧
    (Uri.mk none none "/foo" none).authority = none ∧
    (Art.fromStr "/foo" = .panic ∧
      Data.parse ["/foo"] = .panic ∧
      Data.reload ⟨[], []⟩ ["/foo"] = (⟨[], []⟩, .panic)) :=
  ⟨by decide, rfl,
    art_no_authority_panics "/foo" ⟨none, none, "/foo", none⟩ [] ⟨[], []⟩ (by decide) rfl⟩

end Limbusart
